import Mathlib

/-!
Verification development for the deepchem dataset-preprocessing pipeline.

The Python sources embedded here are
`deep_chem/scripts/process_dataset.py` (field parsing, target building) and
`deep_chem/utils/preprocess.py` (dataset assembly, label/weight balancing,
input/output transforms, train/test splitting).

Conventions of the shallow embedding:
* Python floats are idealised as exact rationals `ℚ`; the IEEE special
  values are tracked symbolically by `PyNum`.
* Python strings are Lean `String`s, but every string operation the code
  performs (strip, split, containment, ordering) is re-implemented on the
  underlying `List Char` so that all definitions reduce in the kernel.
* Python dicts are association lists in insertion order; `dict.keys()`
  enumerates that order, and `sorted(...)` is an insertion sort by the
  code-point order that Python 2 uses on ASCII strings.
* A function that can raise returns `Except PyErr`.
-/

namespace DeepChem

/-- Python exceptions that the embedded code can raise. -/
inductive PyErr where
  | valueError
  | nameError
  | attributeError
  | keyError
deriving DecidableEq

/-- Value of a Python float: a finite rational or one of the IEEE specials. -/
inductive PyNum where
  | fin (q : ℚ)
  | inf
  | ninf
  | nan
deriving DecidableEq

/-- Parsed Python field values flowing out of `process_field`.
`vStrArr` is `np.array` applied to a list of strings: the dtype stays a
string dtype, the elements are NOT numbers.  `vFloatArr` is what a numeric
`np.array` would be; the embedded code never constructs one, which is the
point of claim C5. -/
inductive PyVal where
  | vNone
  | vFloat (n : PyNum)
  | vStr (s : String)
  | vStrList (l : List String)
  | vStrArr (l : List String)
  | vFloatArr (l : List ℚ)
deriving DecidableEq

/-! ### Python string primitives, re-implemented on `List Char` -/

/-- Whitespace characters stripped by Python 2 `str.strip()` (the ones a
float literal may be surrounded by). -/
def isPySpace (c : Char) : Bool :=
  c = ' ' || c = '\t' || c = '\n' || c = '\r' || c = '\x0b' || c = '\x0c'

/-- Python `val.strip()` on the character list of a string. -/
def pyStripChars (cs : List Char) : List Char :=
  ((cs.dropWhile isPySpace).reverse.dropWhile isPySpace).reverse

/-- Python `c in val` for a single character `c` (substring test of a
one-character string). -/
def pyContains (s : String) (c : Char) : Bool := s.data.contains c

/-- Python 2 byte-wise (code-point) string comparison `a <= b`. -/
def pyStrLeCore : List Char → List Char → Bool
  | [], _ => true
  | _ :: _, [] => false
  | a :: as, b :: bs =>
    if a.toNat < b.toNat then true
    else if b.toNat < a.toNat then false
    else pyStrLeCore as bs

/-- Python 2 `a <= b` on strings. -/
def pyStrLe (a b : String) : Bool := pyStrLeCore a.data b.data

/-- Insert a string into an already sorted list, keeping an earlier-seen
element in front of later equal elements (stability of Python `sorted`). -/
def insortStr (s : String) : List String → List String
  | [] => [s]
  | t :: rest => if pyStrLe s t then s :: t :: rest else t :: insortStr s rest

/-- Python `sorted(list_of_strings)`: a stable ascending sort by code-point
order, realised as insertion sort. -/
def pySorted (l : List String) : List String := l.foldr insortStr []

/-- Python `data.split(",")`: splits at every comma, keeping empty pieces;
`"".split(",") == [""]`. -/
def splitCommaCore : List Char → List Char → List String
  | [], acc => [String.mk acc.reverse]
  | c :: rest, acc =>
    if c = ',' then String.mk acc.reverse :: splitCommaCore rest []
    else splitCommaCore rest (c :: acc)

/-- Python `data.split(",")` on a string. -/
def pySplitComma (s : String) : List String := splitCommaCore s.data []

/-- Python `str.lower()` restricted to the ASCII letters relevant for the
literals `inf`/`infinity`/`nan` and the split tags `train`/`valid`/`test`. -/
def pyLowerChars (cs : List Char) : List Char := cs.map Char.toLower

/-- Python `val.lower()` on a string. -/
def pyLower (s : String) : String := String.mk (pyLowerChars s.data)

/-! ### The grammar accepted by Python 2 `float(...)` -/

/-- Numeric value of a list of decimal digit characters. -/
def decNat (cs : List Char) : Nat := cs.foldl (fun a c => 10 * a + (c.toNat - 48)) 0

/-- Rational power of ten for a signed decimal exponent. -/
def qpow10 (e : ℤ) : ℚ := if 0 ≤ e then (10 : ℚ) ^ e.toNat else 1 / (10 : ℚ) ^ (-e).toNat

/-- Parses the exponent part of a float literal (the characters after the
`e`/`E`), yielding the signed exponent. -/
def parseExpPart (cs : List Char) : Option ℤ :=
  let (eneg, cs2) : Bool × List Char :=
    match cs with
    | '+' :: t => (false, t)
    | '-' :: t => (true, t)
    | t => (false, t)
  let ds := cs2.takeWhile Char.isDigit
  if ds.isEmpty || !(cs2.dropWhile Char.isDigit).isEmpty then none
  else some (if eneg then -(decNat ds : ℤ) else (decNat ds : ℤ))

/-- Parses the unsigned mantissa-with-exponent part of a Python float
literal: `digits [. digits] [exp]`, `. digits [exp]`.  Returns the exact
rational value; `none` when `float(...)` would raise `ValueError`. -/
def parseMantExp (cs : List Char) : Option ℚ :=
  let ip := cs.takeWhile Char.isDigit
  let r1 := cs.dropWhile Char.isDigit
  match r1 with
  | [] => if ip.isEmpty then none else some (decNat ip : ℚ)
  | '.' :: r2 =>
    let fp := r2.takeWhile Char.isDigit
    let r3 := r2.dropWhile Char.isDigit
    if ip.isEmpty && fp.isEmpty then none
    else
      let m : ℚ := (decNat ip : ℚ) + (decNat fp : ℚ) / (10 : ℚ) ^ fp.length
      match r3 with
      | [] => some m
      | 'e' :: r4 => (parseExpPart r4).map (fun e => m * qpow10 e)
      | 'E' :: r4 => (parseExpPart r4).map (fun e => m * qpow10 e)
      | _ => none
  | 'e' :: r2 =>
    if ip.isEmpty then none else (parseExpPart r2).map (fun e => (decNat ip : ℚ) * qpow10 e)
  | 'E' :: r2 =>
    if ip.isEmpty then none else (parseExpPart r2).map (fun e => (decNat ip : ℚ) * qpow10 e)
  | _ => none

/-- Python 2 `float(s)`: strips surrounding whitespace, takes an optional
sign, and accepts either a finite decimal literal or one of the special
literals `inf`, `infinity`, `nan` (case-insensitively).  `none` models a
raised `ValueError`. -/
def pyCoerceFloat (s : String) : Option PyNum :=
  let (neg, cs) : Bool × List Char :=
    match pyStripChars s.data with
    | '+' :: t => (false, t)
    | '-' :: t => (true, t)
    | t => (false, t)
  let low := String.mk (pyLowerChars cs)
  if low = "inf" || low = "infinity" then some (if neg then PyNum.ninf else PyNum.inf)
  else if low = "nan" then some PyNum.nan
  else (parseMantExp cs).map (fun q => PyNum.fin (if neg then -q else q))

/-- Python `">" in val or "<" in val or "-" in val`
(process_dataset.py:74). -/
def hasCensorChar (s : String) : Bool :=
  pyContains s ('>') || pyContains s ('<') || pyContains s ('-')

/-! ### parse_float_input and process_field (process_dataset.py:64-75, 160-171) -/

/-- Embedding of `parse_float_input` (process_dataset.py:64-75).  `None`
passes through; a coercible string yields its float; on `ValueError` the
censored-measurement heuristic yields `np.nan`; otherwise the function
falls off the end of the `except` block and implicitly returns `None`.
The `Except` codomain records that no exception escapes: the single
`try/except ValueError` catches the only error `float(val)` raises here. -/
def parse_float_input (val : Option String) : Except PyErr PyVal :=
  match val with
  | none => Except.ok PyVal.vNone
  | some s =>
    match pyCoerceFloat s with
    | some n => Except.ok (PyVal.vFloat n)
    | none =>
      if hasCensorChar s then Except.ok (PyVal.vFloat PyNum.nan)
      else Except.ok PyVal.vNone

/-- Embedding of `process_field` (process_dataset.py:160-171).  The raw
field value is a string, or `None` for a property absent from an SDF
molecule.  For `list-string`/`list-float` a `None` value would hit
`None.split` and raise `AttributeError`.  For `list-float` the code runs
`np.array(data.split(","))`: the pieces are never passed through
`float`, so the resulting array keeps a string dtype (`vStrArr`).  An
undeclared field type falls off the end and returns `None`. -/
def process_field (data : Option String) (field_type : String) : Except PyErr PyVal :=
  if field_type = "string" then
    Except.ok (match data with | some s => PyVal.vStr s | none => PyVal.vNone)
  else if field_type = "float" then
    parse_float_input data
  else if field_type = "list-string" then
    match data with
    | some s => Except.ok (PyVal.vStrList (pySplitComma s))
    | none => Except.error PyErr.attributeError
  else if field_type = "list-float" then
    match data with
    | some s => Except.ok (PyVal.vStrArr (pySplitComma s))
    | none => Except.error PyErr.attributeError
  else if field_type = "ndarray" then
    Except.ok (match data with | some s => PyVal.vStr s | none => PyVal.vNone)
  else
    Except.ok PyVal.vNone

/-- Python 2 `raw_val > threshold` where `threshold` is a float
(process_dataset.py:186).  `nan > x` is `False`; `None` compares below
every number in Python 2; strings, lists and arrays compare above floats
by CPython's type-name ordering (those cases never matter for the claims
settled here). -/
def pyGt (v : PyVal) (threshold : ℚ) : Bool :=
  match v with
  | PyVal.vFloat (PyNum.fin q) => decide (threshold < q)
  | PyVal.vFloat PyNum.inf => true
  | PyVal.vFloat PyNum.ninf => false
  | PyVal.vFloat PyNum.nan => false
  | PyVal.vNone => false
  | PyVal.vStr _ => true
  | PyVal.vStrList _ => true
  | PyVal.vStrArr _ => true
  | PyVal.vFloatArr _ => true

/-- Embedding of `row[field] = 1 if raw_val > threshold else 0`
(process_dataset.py:186): threshold binarisation of the prediction
endpoint in `generate_targets`. -/
def binarizeTarget (raw : PyVal) (threshold : ℚ) : ℚ :=
  if pyGt raw threshold then 1 else 0

/-- Label that `generate_targets` records for the prediction endpoint when
a threshold is supplied (process_dataset.py:183-186): the field is parsed
with `process_field` and the result binarised against the threshold. -/
def recordBinarizedLabel (data : Option String) (field_type : String) (threshold : ℚ) :
    Except PyErr ℚ :=
  (process_field data field_type).map (fun v => binarizeTarget v threshold)

instance exceptDecEq {ε α : Type} [DecidableEq ε] [DecidableEq α] :
    DecidableEq (Except ε α)
  | Except.error a, Except.error b =>
    if h : a = b then isTrue (by rw [h]) else isFalse (by simp [h])
  | Except.error _, Except.ok _ => isFalse (by simp)
  | Except.ok _, Except.error _ => isFalse (by simp)
  | Except.ok a, Except.ok b =>
    if h : a = b then isTrue (by rw [h]) else isFalse (by simp [h])

/-! ### The dataset model (preprocess.py)

A dataset is a Python dict mapping a canonical identifier (smiles string)
to a compound entry; it is embedded as an association list in the dict's
insertion/iteration order, with unique keys.  Matrices are lists of rows
of rationals, `M[i][t]` being row (sample) `i`, column (task) `t`. -/

/-- One compound entry of a loaded dataset: feature vector, label dict
(task name to numeric value, `-1` the missing-label sentinel), scaffold
key and optional split tag. -/
structure Datapoint where
  fingerprint : List ℚ
  labels : List (String × ℚ)
  scaffold : String
  split : Option String
deriving DecidableEq

/-- Default datapoint, used only as the lookup fallback. -/
def dpDefault : Datapoint := ⟨[], [], "", none⟩

/-- A dataset: `dict` from canonical identifier to compound entry, in
insertion order. -/
abbrev Dataset := List (String × Datapoint)

/-- A dense numeric matrix (numpy 2-D array) as a list of rows. -/
abbrev Mat := List (List ℚ)

/-- Python `dataset.keys()` in dict order. -/
def datasetKeys (d : Dataset) : List String := d.map Prod.fst

/-- Python `dataset[smiles]`. -/
def lookupDP (d : Dataset) (s : String) : Datapoint := (d.lookup s).getD dpDefault

/-- Python `labels[target]` inside a datapoint. -/
def labelVal (dp : Datapoint) (target : String) : ℚ := (dp.labels.lookup target).getD 0

/-- Python `sorted(labels.keys())` of one datapoint: the task columns of
its row, lexicographically sorted. -/
def taskList (dp : Datapoint) : List String := pySorted (dp.labels.map Prod.fst)

/-- Matrix entry `M[i][t]`. -/
def matEntry (M : Mat) (i t : Nat) : ℚ := (M.getD i []).getD t 0

/-- Second component of `np.shape(y)` for the rectangular matrices built
here: the length of the first row. -/
def nTargets (y : Mat) : Nat := (y.headD []).length

/-! ### balance_positives (preprocess.py:115-149) -/

/-- The `positive_inds` list collected for one target column: sample
indices whose label is 1. -/
def positive_inds (y : Mat) (t : Nat) : List Nat :=
  (List.range y.length).filter (fun i => decide (matEntry y i t = 1))

/-- The `negative_inds` list for one target column: sample indices whose
label is 0. -/
def negative_inds (y : Mat) (t : Nat) : List Nat :=
  (List.range y.length).filter (fun i => decide (matEntry y i t = 0))

/-- Whether every label in target column `t` lies in `{1, 0, -1}`.  When
false the source hits its `else: warnings.warn(...); break` arm and skips
the whole target without touching `W`. -/
def validColumn (y : Mat) (t : Nat) : Bool :=
  (List.range y.length).all (fun i =>
    decide (matEntry y i t = 1) || decide (matEntry y i t = 0) || decide (matEntry y i t = -1))

/-- The `pos_weight` of one target column: 0 when there are no positives
(the source's flagged pre-release gap), else `n_negatives / n_positives`. -/
def pos_weight (y : Mat) (t : Nat) : ℚ :=
  if (positive_inds y t).length = 0 then 0
  else ((negative_inds y t).length : ℚ) / ((positive_inds y t).length : ℚ)

/-- Entry `(i, t)` of `W` after `balance_positives`: the in-place updates
`W[positive_inds, t] = pos_weight` and `W[negative_inds, t] = 1` rendered
entrywise; a skipped (invalid) column and the untouched missing-label
entries keep their incoming weight. -/
def balancedEntry (y W : Mat) (i t : Nat) : ℚ :=
  if validColumn y t then
    if matEntry y i t = 1 then pos_weight y t
    else if matEntry y i t = 0 then 1
    else matEntry W i t
  else matEntry W i t

/-- Embedding of `balance_positives` (preprocess.py:115-149): the final
contents of the `(n_samples, n_targets)` weight array, with
`n_samples, n_targets = np.shape(y)`. -/
def balance_positives (y W : Mat) : Mat :=
  (List.range y.length).map (fun i =>
    (List.range (nTargets y)).map (fun t => balancedEntry y W i t))

/-! ### dataset_to_numpy (preprocess.py:172-214) and
tensor_dataset_to_numpy (preprocess.py:151-170) -/

/-- Row `index` of `y` as filled by the loop at preprocess.py:204-211:
each datapoint's label values in the order of its own sorted target keys
(the `-1` sentinel is stored unchanged, so the row is just the values). -/
def rowLabels (dp : Datapoint) : List ℚ :=
  (taskList dp).map (fun target => labelVal dp target)

/-- Row `index` of `W` before balancing: `np.ones` overwritten with 0 at
each missing (`-1`) label. -/
def rowWeights (dp : Datapoint) : List ℚ :=
  (taskList dp).map (fun target => if labelVal dp target = -1 then 0 else 1)

/-- The `sorted_smiles` row ordering of `dataset_to_numpy`. -/
def sortedSmiles (d : Dataset) : List String := pySorted (datasetKeys d)

/-- Feature matrix `X` assembled by `dataset_to_numpy`. -/
def assembleX (d : Dataset) : Mat := (sortedSmiles d).map (fun s => (lookupDP d s).fingerprint)

/-- Label matrix `y` assembled by `dataset_to_numpy`. -/
def assembleY (d : Dataset) : Mat := (sortedSmiles d).map (fun s => rowLabels (lookupDP d s))

/-- Weight matrix `W` assembled by `dataset_to_numpy` before balancing. -/
def assembleW0 (d : Dataset) : Mat := (sortedSmiles d).map (fun s => rowWeights (lookupDP d s))

/-- Embedding of `dataset_to_numpy` (preprocess.py:172-214), the vector
datatype of the Dataset Assembler.  Rows follow `sorted(dataset.keys())`;
each row's label columns follow that datapoint's own
`sorted(labels.keys())` (entries are assumed task-uniform by the Dataset
invariant; a non-uniform entry would be an index error in the source).
With `weight_positives` (the default) the weights pass through
`balance_positives`. -/
def dataset_to_numpy (d : Dataset) (weight_positives : Bool) : Mat × Mat × Mat :=
  (assembleX d, assembleY d,
    if weight_positives then balance_positives (assembleY d) (assembleW0 d) else assembleW0 d)

/-- Embedding of `tensor_dataset_to_numpy` (preprocess.py:151-170).  The
source computes `sorted_ids = sorted(dataset.keys())` but never uses it:
the fill loop enumerates `dataset.keys()` in dict iteration order, so the
rows are NOT in sorted key order.  `y[index] = labels["3d_core_pdbbind"]`
is a single hard-wired task (a missing key would be a KeyError in the
source; the datasets modelled here carry the key), and `W` stays all
ones. -/
def tensor_dataset_to_numpy (d : Dataset) : Mat × Mat × Mat :=
  (d.map (fun p => p.2.fingerprint),
   d.map (fun p => [(p.2.labels.lookup ("3d_core_pdbbind")).getD 0]),
   d.map (fun _ => [1]))

/-! ### An array store, for the aliasing claim C9

Numpy arrays are mutable buffers passed by reference.  `Store` is a heap
of arrays addressed by index; a Python variable holding an array is an
address into it. -/

/-- A heap of numpy 2-D arrays. -/
abbrev Store := List Mat

/-- The call `balance_positives(y, W)` as a state transformer on the
array store: the source's fancy-index assignments
`W[positive_inds, target_ind] = pos_weight` and
`W[negative_inds, target_ind] = 1` write into the caller's array in
place, leaving its buffer holding the balanced weights, and `return W`
returns the address it was handed. -/
def balance_positives_call (st : Store) (yRef wRef : Nat) : Store × Nat :=
  (st.set wRef (balance_positives (st.getD yRef []) (st.getD wRef [])), wRef)

/-! ### transform_inputs (preprocess.py:24-50)

The source iterates over feature columns of `X`; the matrix argument is
therefore represented here by its list of feature columns.  `np.std`
computes a square root, which leaves `ℚ`; the embedding takes the
standard-deviation function `stdFn` as a parameter, constrained in the
theorems by `0 ≤ stdFn col` and `stdFn col * stdFn col = pyVar col`,
which characterises `np.std` exactly. -/

/-- Value of `np.amax` on a nonempty list (0 on the empty list, which the
source never hits). -/
def pyMax : List ℚ → ℚ
  | [] => 0
  | h :: t => t.foldl max h

/-- Value of `np.amin` on a nonempty list. -/
def pyMin : List ℚ → ℚ
  | [] => 0
  | h :: t => t.foldl min h

/-- Value of `np.mean`. -/
def pyMean (xs : List ℚ) : ℚ := xs.sum / (xs.length : ℚ)

/-- Value of `np.var`, the square of `np.std`: mean squared deviation. -/
def pyVar (xs : List ℚ) : ℚ :=
  (xs.map (fun x => (x - pyMean xs) ^ 2)).sum / (xs.length : ℚ)

/-- The two clamp statements `feature_data[feature_data > trunc] = trunc`
and `feature_data[feature_data < -trunc] = -trunc` with `trunc = 10`,
per element. -/
def clampTrunc (q : ℚ) : ℚ := if 10 < q then 10 else if q < -10 then -10 else q

/-- The column after `feature_data = feature_data - mean` and the
conditional `feature_data = feature_data / std` (skipped when the
standard deviation is zero, preprocess.py:40-42). -/
def centeredScaled (col : List ℚ) (std : ℚ) : List ℚ :=
  if std = 0 then col.map (fun x => x - pyMean col)
  else (col.map (fun x => x - pyMean col)).map (fun x => x / std)

/-- The centred/scaled column after the two clamp statements. -/
def normalizedClamped (col : List ℚ) (std : ℚ) : List ℚ :=
  (centeredScaled col std).map clampTrunc

/-- One application of the `normalize` input transform to a feature
column (preprocess.py:37-46): only a column ranging outside `[-10, 10]`
is touched; it is centred by its mean, scaled by its standard deviation
unless that is zero, clamped to `[-10, 10]`, and the final range check
raises `ValueError` on failure. -/
def normalizeOp (col : List ℚ) (std : ℚ) : Except PyErr (List ℚ) :=
  if 10 < pyMax col ∨ pyMin col < -10 then
    if 10 < pyMax (normalizedClamped col std) ∨ pyMin (normalizedClamped col std) < -10 then
      Except.error PyErr.valueError
    else Except.ok (normalizedClamped col std)
  else Except.ok col

/-- The successful result of `normalizeOp` (the error branch is
unreachable, proved below). -/
def normalizeOpRun (col : List ℚ) (std : ℚ) : List ℚ :=
  match normalizeOp col std with
  | Except.ok r => r
  | Except.error _ => []

/-- The inner loop `for input_transform in input_transforms` applied to
one feature column; an unsupported name raises `ValueError`
(preprocess.py:47-48). -/
def applyOps (ops : List String) (stdFn : List ℚ → ℚ) (col : List ℚ) :
    Except PyErr (List ℚ) :=
  match ops with
  | [] => Except.ok col
  | op :: rest =>
    if op = "normalize" then
      match normalizeOp col (stdFn col) with
      | Except.error e => Except.error e
      | Except.ok col2 => applyOps rest stdFn col2
    else Except.error PyErr.valueError

/-- Runs a fallible computation over each element, propagating the first
raised exception (the shape of the source's column loop). -/
def mapExcept (f : α → Except PyErr β) : List α → Except PyErr (List β)
  | [] => Except.ok []
  | a :: l =>
    match f a with
    | Except.error e => Except.error e
    | Except.ok b =>
      match mapExcept f l with
      | Except.error e => Except.error e
      | Except.ok bs => Except.ok (b :: bs)

/-- Embedding of `transform_inputs` (preprocess.py:24-50) on the list of
feature columns of `X`. -/
def transform_inputs (X : List (List ℚ)) (ops : List String) (stdFn : List ℚ → ℚ) :
    Except PyErr (List (List ℚ)) :=
  mapExcept (applyOps ops stdFn) X

/-! ### Splitting (preprocess.py:246-350) -/

/-- Embedding of `train_test_specified_split` (preprocess.py:258-271):
entries route by their lowercased `split` tag, `train`/`valid` to train,
`test` to test; a missing tag or any other value raises `ValueError`. -/
def train_test_specified_split : Dataset → Except PyErr (Dataset × Dataset)
  | [] => Except.ok ([], [])
  | p :: rest =>
    match p.2.split with
    | none => Except.error PyErr.valueError
    | some s =>
      if pyLower s = "train" || pyLower s = "valid" then
        (train_test_specified_split rest).map (fun tt => (p :: tt.1, tt.2))
      else if pyLower s = "test" then
        (train_test_specified_split rest).map (fun tt => (tt.1, p :: tt.2))
      else Except.error PyErr.valueError

/-- Embedding of `train_test_random_split` (preprocess.py:273-297).
`np.random.permutation(dataset.keys())` is modelled by the explicit
permutation `shuffled` of the key list; the first
`floor(frac_train * N)` permuted keys form the train dict, the rest the
test dict. -/
def train_test_random_split (d : Dataset) (shuffled : List String) (frac_train : ℚ) :
    Dataset × Dataset :=
  let train_cutoff := (⌊frac_train * (shuffled.length : ℚ)⌋).toNat
  ((shuffled.take train_cutoff).map (fun k => (k, lookupDP d k)),
   (shuffled.drop train_cutoff).map (fun k => (k, lookupDP d k)))

/-- Appends a compound to its scaffold's member list, creating the group
on first encounter (the dict-building loop of `scaffold_separate`,
preprocess.py:341-348, with the dict in insertion order). -/
def addToScaffoldGroup : List (String × List String) → String → String → List (String × List String)
  | [], sc, sm => [(sc, [sm])]
  | g :: rest, sc, sm =>
    if g.1 = sc then (g.1, g.2 ++ [sm]) :: rest
    else g :: addToScaffoldGroup rest sc sm

/-- Inserts a group into a list already sorted by descending member
count, keeping an earlier group in front of later groups of equal size
(stability of Python `sorted` with key `-len`). -/
def insortGroup (g : String × List String) :
    List (String × List String) → List (String × List String)
  | [] => [g]
  | h :: rest =>
    if h.2.length ≤ g.2.length then g :: h :: rest else h :: insortGroup g rest

/-- Python `sorted(scaffolds.items(), key=lambda x: -len(x[1]))` as a
stable insertion sort by descending group size. -/
def sortGroupsBySizeDesc (l : List (String × List String)) : List (String × List String) :=
  l.foldr insortGroup []

/-- Embedding of `scaffold_separate` (preprocess.py:328-350): group the
dataset's compounds by their `scaffold` attribute and sort the groups by
descending size. -/
def scaffold_separate (d : Dataset) : List (String × List String) :=
  sortGroupsBySizeDesc (d.foldl (fun acc p => addToScaffoldGroup acc p.2.scaffold p.1) [])

/-- The placement loop of `train_test_scaffold_split`
(preprocess.py:318-325), accumulating train/test key lists: each group
goes whole to test when adding it would make the train set bigger than
`train_size`, else whole to train.  The test is re-evaluated for every
group. -/
def scaffoldPlace (tsize : ℚ) :
    List (String × List String) → List String → List String → List String × List String
  | [], train, test => (train, test)
  | g :: rest, train, test =>
    if tsize < (train.length : ℚ) + (g.2.length : ℚ) then
      scaffoldPlace tsize rest train (test ++ g.2)
    else
      scaffoldPlace tsize rest (train ++ g.2) test

/-- Embedding of `train_test_scaffold_split` (preprocess.py:299-326). -/
def train_test_scaffold_split (d : Dataset) (frac_train : ℚ) : Dataset × Dataset :=
  let keys := scaffoldPlace (frac_train * (d.length : ℚ)) (scaffold_separate d) [] []
  (keys.1.map (fun k => (k, lookupDP d k)), keys.2.map (fun k => (k, lookupDP d k)))

/-- Embedding of `split_dataset` (preprocess.py:246-256).  The `random`
arm executes `train_test_random_split(dataset, seed=seed)`: no variable
named `seed` is bound in `split_dataset` or at module scope, so
evaluating the keyword argument raises `NameError` before any split
happens. -/
def split_dataset (d : Dataset) (splittype : String) : Except PyErr (Dataset × Dataset) :=
  if splittype = "random" then Except.error PyErr.nameError
  else if splittype = "scaffold" then Except.ok (train_test_scaffold_split d (4/5))
  else if splittype = "specified" then train_test_specified_split d
  else Except.error PyErr.valueError

/-- The groups that `scaffoldPlace` sends to train, tracking only the
accumulated train size `cur`; spelt out as a standalone recursion for the
amended claim C3. -/
def selectTrainGroups (tsize : ℚ) (cur : ℚ) :
    List (String × List String) → List (String × List String)
  | [] => []
  | g :: rest =>
    if tsize < cur + (g.2.length : ℚ) then selectTrainGroups tsize cur rest
    else g :: selectTrainGroups tsize (cur + (g.2.length : ℚ)) rest

/-- The groups that `scaffoldPlace` sends to test (complement of
`selectTrainGroups`). -/
def selectTestGroups (tsize : ℚ) (cur : ℚ) :
    List (String × List String) → List (String × List String)
  | [] => []
  | g :: rest =>
    if tsize < cur + (g.2.length : ℚ) then g :: selectTestGroups tsize cur rest
    else selectTestGroups tsize (cur + (g.2.length : ℚ)) rest

/-! ### Concrete datasets and stores used by counterexamples and witnesses -/

/-- One compound, one task, label 1 (a task with a positive but no
negative). -/
def D1 : Dataset := [("A", ⟨[0], [("t", 1)], "", none⟩)]

/-- Two compounds, one task, one positive and one negative label. -/
def D2 : Dataset :=
  [("A", ⟨[0], [("t", 1)], "", none⟩), ("B", ⟨[0], [("t", 0)], "", none⟩)]

/-- Six compounds in three scaffold groups of sizes 3, 2, 1. -/
def D3 : Dataset :=
  [("a", ⟨[], [], "S1", none⟩), ("b", ⟨[], [], "S1", none⟩), ("c", ⟨[], [], "S1", none⟩),
   ("d", ⟨[], [], "S2", none⟩), ("e", ⟨[], [], "S2", none⟩),
   ("f", ⟨[], [], "S3", none⟩)]

/-- Label matrix with one task column holding one positive and two
negative labels. -/
def D7y : Mat := [[1], [0], [0]]

/-- All-ones weight matrix matching `D7y`. -/
def D7W : Mat := [[1], [1], [1]]

/-- Array store holding the label matrix `D7y` at address 0 and the
weight matrix `D7W` at address 1. -/
def St9 : Store := [[[1], [0], [0]], [[1], [1], [1]]]

/-- Two single-task compounds whose dict iteration order (`B` before `A`)
differs from the sorted key order. -/
def D8 : Dataset :=
  [("B", ⟨[], [("3d_core_pdbbind", 5)], "", none⟩),
   ("A", ⟨[], [("3d_core_pdbbind", 7)], "", none⟩)]

/-! ### Helper lemmas -/

/-- Indexing a matrix built from `List.range`. -/
theorem getD_range_map {α : Type} (n : Nat) (f : Nat → α) (i : Nat) (d : α) (h : i < n) :
    ((List.range n).map f).getD i d = f i := by
  rw [List.getD_eq_getElem?_getD, List.getElem?_map, List.getElem?_range h]
  rfl

/-- Indexing a mapped list at an in-range position. -/
theorem getD_map_get {α β : Type} (l : List α) (f : α → β) (i : Nat) (h : i < l.length)
    (d : β) : (l.map f).getD i d = f (l.get ⟨i, h⟩) := by
  rw [List.getD_eq_getElem?_getD, List.getElem?_map, List.getElem?_eq_getElem h]
  rfl

/-- Membership in the collected positive index list. -/
theorem mem_positive_inds (y : Mat) (t i : Nat) :
    i ∈ positive_inds y t ↔ i < y.length ∧ matEntry y i t = 1 := by
  simp [positive_inds, List.mem_filter, List.mem_range]

/-- Membership in the collected negative index list. -/
theorem mem_negative_inds (y : Mat) (t i : Nat) :
    i ∈ negative_inds y t ↔ i < y.length ∧ matEntry y i t = 0 := by
  simp [negative_inds, List.mem_filter, List.mem_range]

/-- In-range entries of the balanced weight matrix. -/
theorem balance_entry_eq (y W : Mat) (i t : Nat) (hi : i < y.length)
    (ht : t < nTargets y) :
    matEntry (balance_positives y W) i t = balancedEntry y W i t := by
  unfold matEntry balance_positives
  rw [getD_range_map _ _ _ _ hi, getD_range_map _ _ _ _ ht]

/-- Sum of a function that is constant on a list. -/
theorem sum_map_eq_card_mul (l : List Nat) (f : Nat → ℚ) (c : ℚ)
    (h : ∀ x ∈ l, f x = c) : (l.map f).sum = (l.length : ℚ) * c := by
  induction l with
  | nil => simp
  | cons a l ih =>
    simp only [List.map_cons, List.sum_cons, List.length_cons]
    rw [h a (List.mem_cons_self a l), ih (fun x hx => h x (List.mem_cons_of_mem a hx))]
    push_cast
    ring

/-- Inserting into a sorted list of strings is a permutation of consing. -/
theorem insort_perm (s : String) (l : List String) : (insortStr s l).Perm (s :: l) := by
  induction l with
  | nil => exact List.Perm.refl _
  | cons t rest ih =>
    unfold insortStr
    by_cases h : pyStrLe s t
    · rw [if_pos h]
    · rw [if_neg h]
      exact (ih.cons t).trans (List.Perm.swap s t rest)

/-- Python `sorted` permutes its input. -/
theorem pySorted_perm (l : List String) : (pySorted l).Perm l := by
  induction l with
  | nil => exact List.Perm.refl _
  | cons s rest ih => exact (insort_perm s (pySorted rest)).trans (ih.cons s)

/-- The sorted key list of a dataset has one entry per compound. -/
theorem sortedSmiles_length (d : Dataset) : (sortedSmiles d).length = d.length := by
  rw [sortedSmiles, (pySorted_perm (datasetKeys d)).length_eq, datasetKeys, List.length_map]

/-- Sorting preserves key membership. -/
theorem mem_sortedSmiles (d : Dataset) (s : String) :
    s ∈ sortedSmiles d ↔ s ∈ datasetKeys d :=
  (pySorted_perm (datasetKeys d)).mem_iff

/-- A key of the dataset looks up to an actual entry of the dataset. -/
theorem lookup_mem (d : Dataset) (s : String) (h : s ∈ datasetKeys d) :
    (s, lookupDP d s) ∈ d := by
  induction d with
  | nil => simp [datasetKeys] at h
  | cons p rest ih =>
    by_cases hps : p.1 = s
    · have : lookupDP (p :: rest) s = p.2 := by
        simp [lookupDP, List.lookup, hps]
      rw [this, ← hps]
      exact List.mem_cons_self _ _
    · have hkey : s ∈ datasetKeys rest := by
        rcases List.mem_cons.1 h with h1 | h1
        · exact absurd h1.symm hps
        · exact h1
      have hbeq : (s == p.1) = false := by
        rw [beq_eq_false_iff_ne]
        exact fun heq => hps heq.symm
      have : lookupDP (p :: rest) s = lookupDP rest s := by
        simp [lookupDP, List.lookup, hbeq]
      rw [this]
      exact List.mem_cons_of_mem p (ih hkey)

/-- The assembled pre-balance weight entry is 0 exactly on the
missing-label sentinel and 1 otherwise: `W0[i][t]` is determined by
`y[i][t]`, because row `i` of `y` and of `W0` are built from the same
datapoint over the same sorted target list. -/
theorem assembleYW_entry (d : Dataset) (T : Nat)
    (hlen : ∀ p ∈ d, (taskList p.2).length = T)
    (i t : Nat) (hi : i < d.length) (ht : t < T) :
    matEntry (assembleW0 d) i t = (if matEntry (assembleY d) i t = -1 then 0 else 1) := by
  have hi2 : i < (sortedSmiles d).length := by rw [sortedSmiles_length]; exact hi
  have hsmem : (sortedSmiles d).get ⟨i, hi2⟩ ∈ datasetKeys d :=
    (mem_sortedSmiles d _).1 (List.get_mem _ _ _)
  have hdp := lookup_mem d _ hsmem
  have hT := hlen _ hdp
  have ht2 : t < (taskList (lookupDP d ((sortedSmiles d).get ⟨i, hi2⟩))).length := by
    rw [hT]; exact ht
  unfold matEntry assembleY assembleW0
  rw [getD_map_get _ _ _ hi2, getD_map_get _ _ _ hi2]
  unfold rowLabels rowWeights
  rw [getD_map_get _ _ _ ht2, getD_map_get _ _ _ ht2]

/-- The assembled label matrix has `T` columns (nonempty dataset,
task-uniform entries). -/
theorem nTargets_assembleY (d : Dataset) (T : Nat)
    (hlen : ∀ p ∈ d, (taskList p.2).length = T) (hd : d ≠ []) :
    nTargets (assembleY d) = T := by
  have hlen2 : (sortedSmiles d).length = d.length := sortedSmiles_length d
  cases hss : sortedSmiles d with
  | nil =>
    exfalso
    rw [hss] at hlen2
    exact hd (List.length_eq_zero.1 hlen2.symm)
  | cons k rest =>
    have hk : k ∈ datasetKeys d := by
      rw [← mem_sortedSmiles, hss]
      exact List.mem_cons_self _ _
    unfold nTargets assembleY
    rw [hss]
    simp only [List.map_cons, List.headD_cons]
    unfold rowLabels
    rw [List.length_map]
    exact hlen _ (lookup_mem d k hk)

/-- Row count of the assembled label matrix. -/
theorem assembleY_length (d : Dataset) : (assembleY d).length = d.length := by
  rw [assembleY, List.length_map, sortedSmiles_length]

/-! ### Claims C4, C5, C10 -/

/-- Claim C4, counterexample.  The raw value `"abc"` fails float coercion
and contains none of `>`, `<`, `-`; the claim says this case must
propagate an error to the caller, but `parse_float_input` falls off the
end of its `except ValueError` block and silently returns `None` — an
`Except.ok` result, not an `Except.error`. -/
theorem claimC4_counterexample :
    pyCoerceFloat ("abc") = none ∧ hasCensorChar ("abc") = false ∧
    parse_float_input (some ("abc")) = Except.ok PyVal.vNone := by decide

/-- Claim C4 (amended): for every raw string value of declared type
`float` that fails numeric coercion and contains none of `>`, `<`, `-`,
`parse_float_input` silently returns the null marker `None` to the caller;
no error is raised or propagated. -/
theorem claimC4_amended (s : String) (h1 : pyCoerceFloat s = none)
    (h2 : hasCensorChar s = false) :
    parse_float_input (some s) = Except.ok PyVal.vNone := by
  simp [parse_float_input, h1, h2]

/-- Claim C4, witness for the amended theorem at the input `"abc"`. -/
theorem claimC4_witness : parse_float_input (some ("abc")) = Except.ok PyVal.vNone :=
  claimC4_amended ("abc") (by decide) (by decide)

/-- Claim C5, failing input.  On the raw value `"1.5,2.5"` with declared
type `list-float`, `process_field` runs `np.array(data.split(","))` and
returns an array whose elements are still the strings `"1.5"` and
`"2.5"`; no piece is parsed as a float, although each piece is perfectly
coercible (second conjunct).  The claim (and the field type's evident
intent) says the result should be an ordered sequence of numeric
values. -/
theorem claimC5_failing :
    process_field (some ("1.5,2.5")) ("list-float")
      = Except.ok (PyVal.vStrArr ["1.5", "2.5"])
    ∧ (pyCoerceFloat ("1.5")).isSome = true := by decide

/-- Claim C10: for every raw prediction-endpoint string of declared type
`float` that fails numeric coercion but contains `>`, `<` or `-` (a
censored/ranged measurement parsed to the `np.nan` sentinel), and for
every binarisation threshold, `generate_targets` records the binarised
label 0, because `nan > threshold` is false in Python. -/
theorem claimC10 (s : String) (threshold : ℚ)
    (h1 : pyCoerceFloat s = none) (h2 : hasCensorChar s = true) :
    recordBinarizedLabel (some s) ("float") threshold = Except.ok 0 := by
  simp [recordBinarizedLabel, process_field, parse_float_input, h1, h2,
    binarizeTarget, pyGt, Except.map]

/-- Claim C10, witness at the censored raw value `">50"` with threshold 3. -/
theorem claimC10_witness : recordBinarizedLabel (some (">50")) ("float") 3 = Except.ok 0 :=
  claimC10 (">50") 3 (by decide) (by decide)

/-! ### Claim C7 -/

/-- Claim C7: for every label matrix and task column whose labels all lie
in `{0, 1, -1}` with at least one positive and at least one negative
label, `balance_positives` makes the sum of weights over the positive
rows equal the sum over the negative rows exactly: each of the
`n_positives` positive rows gets `n_negatives / n_positives` and each
negative row gets 1, so both sums are `n_negatives`. -/
theorem claimC7 (y W : Mat) (t : Nat) (hval : validColumn y t = true)
    (hpos : (positive_inds y t).length ≠ 0) (hneg : (negative_inds y t).length ≠ 0)
    (ht : t < nTargets y) :
    ((positive_inds y t).map (fun i => matEntry (balance_positives y W) i t)).sum
    = ((negative_inds y t).map (fun i => matEntry (balance_positives y W) i t)).sum := by
  have hP : ∀ i ∈ positive_inds y t,
      matEntry (balance_positives y W) i t = pos_weight y t := by
    intro i hi
    obtain ⟨hin, h1⟩ := (mem_positive_inds y t i).1 hi
    rw [balance_entry_eq y W i t hin ht]
    unfold balancedEntry
    rw [if_pos hval, if_pos h1]
  have hN : ∀ i ∈ negative_inds y t, matEntry (balance_positives y W) i t = 1 := by
    intro i hi
    obtain ⟨hin, h0⟩ := (mem_negative_inds y t i).1 hi
    have h1 : ¬ matEntry y i t = 1 := by rw [h0]; norm_num
    rw [balance_entry_eq y W i t hin ht]
    unfold balancedEntry
    rw [if_pos hval, if_neg h1, if_pos h0]
  rw [sum_map_eq_card_mul _ _ _ hP, sum_map_eq_card_mul _ _ _ hN]
  unfold pos_weight
  rw [if_neg hpos, mul_one, mul_comm,
    div_mul_cancel₀ _ (Nat.cast_ne_zero.2 hpos : ((positive_inds y t).length : ℚ) ≠ 0)]

/-- Claim C7, witness on the one-positive/two-negative column `D7y`:
both balanced sums equal 2. -/
theorem claimC7_witness :
    validColumn D7y 0 = true ∧ (positive_inds D7y 0).length ≠ 0 ∧
    (negative_inds D7y 0).length ≠ 0 ∧ 0 < nTargets D7y ∧
    ((positive_inds D7y 0).map (fun i => matEntry (balance_positives D7y D7W) i 0)).sum
    = ((negative_inds D7y 0).map (fun i => matEntry (balance_positives D7y D7W) i 0)).sum :=
  ⟨by decide, by decide, by decide, by decide,
    claimC7 D7y D7W 0 (by decide) (by decide) (by decide) (by decide)⟩

/-! ### Claim C1 -/

/-- Claim C1, counterexample.  On the dataset `D1` (one compound, one
task, label 1) the assembled-and-balanced output has `y[0][0] = 1` but
`W[0][0] = 0`: the task has a positive and no negative, so
`pos_weight = 0/1 = 0` zeroes the weight of a present label, violating
`W[i,t] = 0 ↔ y[i,t] = -1`. -/
theorem claimC1_counterexample :
    matEntry (dataset_to_numpy D1 true).2.2 0 0 = 0 ∧
    matEntry (dataset_to_numpy D1 true).2.1 0 0 = 1 ∧
    ¬ (matEntry (dataset_to_numpy D1 true).2.2 0 0 = 0
        ↔ matEntry (dataset_to_numpy D1 true).2.1 0 0 = -1) := by
  have hW : (dataset_to_numpy D1 true).2.2 = [[0]] := by
    norm_num [dataset_to_numpy, assembleY, assembleW0, sortedSmiles, datasetKeys,
      pySorted, insortStr, pyStrLe, pyStrLeCore, lookupDP, List.lookup, taskList,
      rowLabels, rowWeights, labelVal, balance_positives, balancedEntry, validColumn,
      positive_inds, negative_inds, pos_weight, matEntry, nTargets, List.range,
      List.range.loop, List.filter, List.all, List.getD, D1]
  have hY : (dataset_to_numpy D1 true).2.1 = [[1]] := by decide
  rw [hW, hY]
  norm_num [matEntry, List.getD]

/-- Claim C1 (amended): on every task-uniform dataset in which each task
column of the assembled label matrix that has all labels in `{0, 1, -1}`
and at least one positive label also has at least one negative label,
the vector-datatype assembly with the default balancing step satisfies
`W[i][t] = 0 ↔ y[i][t] = -1` at every in-range entry.  (The
counterexample forces precisely the positive-without-negative exclusion:
there `pos_weight = 0` zeroes a present label's weight.) -/
theorem claimC1_amended (d : Dataset) (T : Nat)
    (hlen : ∀ p ∈ d, (taskList p.2).length = T)
    (hbal : ∀ t, t < T → validColumn (assembleY d) t = true →
        (positive_inds (assembleY d) t).length ≠ 0 →
        (negative_inds (assembleY d) t).length ≠ 0)
    (i t : Nat) (hi : i < d.length) (ht : t < T) :
    (matEntry (dataset_to_numpy d true).2.2 i t = 0
      ↔ matEntry (dataset_to_numpy d true).2.1 i t = -1) := by
  have hd : d ≠ [] := by
    intro h
    rw [h] at hi
    exact Nat.not_lt_zero i hi
  have hnT : nTargets (assembleY d) = T := nTargets_assembleY d T hlen hd
  have hiY : i < (assembleY d).length := by rw [assembleY_length]; exact hi
  have htY : t < nTargets (assembleY d) := by rw [hnT]; exact ht
  show matEntry (balance_positives (assembleY d) (assembleW0 d)) i t = 0
    ↔ matEntry (assembleY d) i t = -1
  rw [balance_entry_eq _ _ _ _ hiY htY]
  unfold balancedEntry
  by_cases hv : validColumn (assembleY d) t = true
  · rw [if_pos hv]
    by_cases h1 : matEntry (assembleY d) i t = 1
    · rw [if_pos h1]
      have hpos : (positive_inds (assembleY d) t).length ≠ 0 := by
        have hmem : i ∈ positive_inds (assembleY d) t :=
          (mem_positive_inds _ _ _).2 ⟨hiY, h1⟩
        intro hz
        rw [List.length_eq_zero.1 hz] at hmem
        exact (List.not_mem_nil i) hmem
      have hneg := hbal t ht hv hpos
      have hpw : pos_weight (assembleY d) t ≠ 0 := by
        unfold pos_weight
        rw [if_neg hpos]
        exact div_ne_zero (Nat.cast_ne_zero.2 hneg) (Nat.cast_ne_zero.2 hpos)
      have hy : ¬ matEntry (assembleY d) i t = -1 := by rw [h1]; norm_num
      exact iff_of_false hpw hy
    · rw [if_neg h1]
      by_cases h0 : matEntry (assembleY d) i t = 0
      · rw [if_pos h0]
        have hy : ¬ matEntry (assembleY d) i t = -1 := by rw [h0]; norm_num
        exact iff_of_false (by norm_num) hy
      · rw [if_neg h0, assembleYW_entry d T hlen i t hi ht]
        by_cases hm : matEntry (assembleY d) i t = -1
        · rw [if_pos hm]
          exact iff_of_true rfl hm
        · rw [if_neg hm]
          exact iff_of_false (by norm_num) hm
  · rw [if_neg hv, assembleYW_entry d T hlen i t hi ht]
    by_cases hm : matEntry (assembleY d) i t = -1
    · rw [if_pos hm]
      exact iff_of_true rfl hm
    · rw [if_neg hm]
      exact iff_of_false (by norm_num) hm

/-- Claim C1, witness on the dataset `D2` (one positive and one negative
label in the single task), at entry `(0, 0)`. -/
theorem claimC1_witness :
    matEntry (dataset_to_numpy D2 true).2.2 0 0 = 0
      ↔ matEntry (dataset_to_numpy D2 true).2.1 0 0 = -1 :=
  claimC1_amended D2 1 (by decide) (by decide) 0 0 (by decide) (by decide)

/-! ### Claim C2 -/

/-- Claim C2, failing behaviour.  For every dataset, dispatching the
splitter with the `random` policy raises `NameError`: preprocess.py:249
calls `train_test_random_split(dataset, seed=seed)` but no variable
`seed` is bound in `split_dataset` or at module scope, so no train/test
pair is ever returned and no caller-supplied seed can reach the
underlying (correctly written) `train_test_random_split`. -/
theorem claimC2_failing (d : Dataset) :
    split_dataset d ("random") = Except.error PyErr.nameError := rfl

/-- Claim C2, witness at a concrete (empty) dataset. -/
theorem claimC2_witness :
    split_dataset [] ("random") = Except.error PyErr.nameError :=
  claimC2_failing []

/-! ### Claim C8 -/

/-- Claim C8, failing input.  On the dataset `D8`, whose dict iteration
order is `B` then `A`, `tensor_dataset_to_numpy` produces label rows
`[[5], [7]]`, i.e. row 0 holds B's label 5 — but the ascending sorted
key order is `["A", "B"]` and A's label is 7, so row 0 does not
correspond to the first sorted identifier.  The source computes
`sorted_ids = sorted(dataset.keys())` and then never uses it, enumerating
`dataset.keys()` instead. -/
theorem claimC8_failing :
    (tensor_dataset_to_numpy D8).2.1 = [[5], [7]]
    ∧ sortedSmiles D8 = ["A", "B"]
    ∧ labelVal (lookupDP D8 ("A")) ("3d_core_pdbbind") = 7 := by decide

/-! ### Claim C9 -/

/-- Claim C9, counterexample.  In the store `St9` (labels at address 0,
weights at address 1), calling the balancer on addresses 0 and 1 returns
address 1 — the very array it was handed, not a freshly allocated one —
and the caller's weight array at address 1 now holds `[[2], [1], [1]]`
instead of its original `[[1], [1], [1]]`: the argument is mutated in
place. -/
theorem claimC9_counterexample :
    (balance_positives_call St9 0 1).2 = 1
    ∧ (balance_positives_call St9 0 1).1.getD 1 [] = [[2], [1], [1]]
    ∧ St9.getD 1 [] = [[1], [1], [1]]
    ∧ ([[(2 : ℚ)], [1], [1]] : Mat) ≠ [[1], [1], [1]] := by
  refine ⟨rfl, ?_, by decide, by norm_num⟩
  norm_num [balance_positives_call, St9, balance_positives, balancedEntry, validColumn,
    positive_inds, negative_inds, pos_weight, matEntry, nTargets, List.range,
    List.range.loop, List.filter, List.all, List.getD, List.set]

/-- Claim C9 (amended): `balance_positives` writes the balanced weights
into the caller's `W` array in place and returns the address it was
handed (not a fresh array); every other array in the store — including
`y` — is untouched.  A caller that needs the original weights must copy
them first. -/
theorem claimC9_amended (st : Store) (yRef wRef : Nat) (hw : wRef < st.length) :
    (balance_positives_call st yRef wRef).2 = wRef
    ∧ (balance_positives_call st yRef wRef).1.getD wRef []
        = balance_positives (st.getD yRef []) (st.getD wRef [])
    ∧ ∀ r, r ≠ wRef → (balance_positives_call st yRef wRef).1.getD r [] = st.getD r [] := by
  refine ⟨rfl, ?_, ?_⟩
  · show (st.set wRef _).getD wRef [] = _
    rw [List.getD_eq_getElem?_getD, List.getElem?_set_self hw]
    rfl
  · intro r hr
    show (st.set wRef _).getD r [] = _
    rw [List.getD_eq_getElem?_getD, List.getElem?_set_ne (fun h => hr h.symm),
      ← List.getD_eq_getElem?_getD]

/-- Claim C9, witness instantiating the amended theorem on the store
`St9` with `yRef = 0`, `wRef = 1`, and the frame conjunct at address 0. -/
theorem claimC9_witness :
    (balance_positives_call St9 0 1).2 = 1
    ∧ (balance_positives_call St9 0 1).1.getD 1 []
        = balance_positives (St9.getD 0 []) (St9.getD 1 [])
    ∧ (balance_positives_call St9 0 1).1.getD 0 [] = St9.getD 0 [] := by
  have h := claimC9_amended St9 0 1 (by decide)
  exact ⟨h.1, h.2.1, h.2.2 0 (by decide)⟩

/-! ### Claim C3 -/

/-- The scaffold placement loop, flattened: starting from accumulated
`train`/`test` key lists, the final result appends exactly the member
lists of the groups selected by `selectTrainGroups` (respectively
`selectTestGroups`), with the running train size seeded by the
accumulator's length. -/
theorem scaffoldPlace_eq (tsize : ℚ) (gs : List (String × List String)) :
    ∀ train test : List String,
    scaffoldPlace tsize gs train test
      = (train ++ ((selectTrainGroups tsize (train.length : ℚ) gs).map Prod.snd).flatten,
         test ++ ((selectTestGroups tsize (train.length : ℚ) gs).map Prod.snd).flatten) := by
  induction gs with
  | nil => intro train test; simp [scaffoldPlace, selectTrainGroups, selectTestGroups]
  | cons g rest ih =>
    intro train test
    unfold scaffoldPlace selectTrainGroups selectTestGroups
    by_cases h : tsize < (train.length : ℚ) + (g.2.length : ℚ)
    · rw [if_pos h, if_pos h, if_pos h, ih]
      simp [List.append_assoc]
    · rw [if_neg h, if_neg h, if_neg h, ih]
      have hc : (((train ++ g.2).length : ℕ) : ℚ) = (train.length : ℚ) + (g.2.length : ℚ) := by
        rw [List.length_append]
        push_cast
        ring
      rw [hc]
      simp [List.append_assoc]

/-- Every group ends up selected for train or selected for test. -/
theorem mem_select_groups (tsize : ℚ) (gs : List (String × List String))
    (g : String × List String) (hg : g ∈ gs) :
    ∀ cur : ℚ, g ∈ selectTrainGroups tsize cur gs ∨ g ∈ selectTestGroups tsize cur gs := by
  induction gs with
  | nil => cases hg
  | cons a rest ih =>
    intro cur
    unfold selectTrainGroups selectTestGroups
    rcases List.mem_cons.1 hg with rfl | hg2
    · by_cases h : tsize < cur + (g.2.length : ℚ)
      · right; rw [if_pos h]; exact List.mem_cons_self _ _
      · left; rw [if_neg h]; exact List.mem_cons_self _ _
    · by_cases h : tsize < cur + (a.2.length : ℚ)
      · rw [if_pos h, if_pos h]
        rcases ih hg2 cur with h2 | h2
        · exact Or.inl h2
        · exact Or.inr (List.mem_cons_of_mem a h2)
      · rw [if_neg h, if_neg h]
        rcases ih hg2 (cur + (a.2.length : ℚ)) with h2 | h2
        · exact Or.inl (List.mem_cons_of_mem a h2)
        · exact Or.inr h2

/-- Projecting the keys back out of a key-to-entry mapped split half. -/
theorem map_fst_keyPairs (d : Dataset) (l : List String) :
    (l.map (fun k => (k, lookupDP d k))).map Prod.fst = l := by
  rw [List.map_map]
  exact List.map_id l

/-- Claim C3, counterexample.  On `D3` (scaffold groups of sizes 3, 2, 1)
with `frac_train = 2/3`, so `train_size = 4`: group S1 (3 keys) goes to
train, group S2 (2 keys, would make 5 > 4) is diverted to test — and yet
the LATER group S3 (`"f"`) is added to train, because the source
re-evaluates the size test for every group instead of diverting all
subsequent groups to test.  The claim requires `"f"` to land in test. -/
theorem claimC3_counterexample :
    (train_test_scaffold_split D3 (2/3)).1.map Prod.fst = ["a", "b", "c", "f"]
    ∧ (train_test_scaffold_split D3 (2/3)).2.map Prod.fst = ["d", "e"] := by
  norm_num [train_test_scaffold_split, scaffold_separate, addToScaffoldGroup,
    sortGroupsBySizeDesc, insortGroup, scaffoldPlace, D3]

/-- Claim C3 (amended): the scaffold split consumes groups largest-first;
each group is added whole to train when the train size accumulated so
far plus the group's size does not exceed `frac_train * N`, and
otherwise that group alone is placed whole in test — later groups are
still considered for train.  The train/test key lists are exactly the
concatenations of the `selectTrainGroups` / `selectTestGroups`
selections, and no scaffold group is ever split across the two
partitions. -/
theorem claimC3_amended (d : Dataset) (frac_train : ℚ) :
    (train_test_scaffold_split d frac_train).1.map Prod.fst
      = ((selectTrainGroups (frac_train * (d.length : ℚ)) 0 (scaffold_separate d)).map
          Prod.snd).flatten
    ∧ (train_test_scaffold_split d frac_train).2.map Prod.fst
      = ((selectTestGroups (frac_train * (d.length : ℚ)) 0 (scaffold_separate d)).map
          Prod.snd).flatten
    ∧ ∀ g ∈ scaffold_separate d,
        (∀ x ∈ g.2, x ∈ (train_test_scaffold_split d frac_train).1.map Prod.fst)
        ∨ (∀ x ∈ g.2, x ∈ (train_test_scaffold_split d frac_train).2.map Prod.fst) := by
  have hplace := scaffoldPlace_eq (frac_train * (d.length : ℚ)) (scaffold_separate d) [] []
  have h1 : (train_test_scaffold_split d frac_train).1.map Prod.fst
      = ((selectTrainGroups (frac_train * (d.length : ℚ)) 0 (scaffold_separate d)).map
          Prod.snd).flatten := by
    unfold train_test_scaffold_split
    rw [map_fst_keyPairs, hplace]
    simp
  have h2 : (train_test_scaffold_split d frac_train).2.map Prod.fst
      = ((selectTestGroups (frac_train * (d.length : ℚ)) 0 (scaffold_separate d)).map
          Prod.snd).flatten := by
    unfold train_test_scaffold_split
    rw [map_fst_keyPairs, hplace]
    simp
  refine ⟨h1, h2, ?_⟩
  intro g hg
  rcases mem_select_groups (frac_train * (d.length : ℚ)) (scaffold_separate d) g hg 0 with
    hsel | hsel
  · left
    intro x hx
    rw [h1]
    exact List.mem_flatten.2 ⟨g.2, List.mem_map_of_mem Prod.snd hsel, hx⟩
  · right
    intro x hx
    rw [h2]
    exact List.mem_flatten.2 ⟨g.2, List.mem_map_of_mem Prod.snd hsel, hx⟩

/-- Claim C3, witness: the amended characterisation applied to `D3` at
`frac_train = 2/3` (train keys are the flattened selected-for-train
groups). -/
theorem claimC3_witness :
    (train_test_scaffold_split D3 (2/3)).1.map Prod.fst
      = ((selectTrainGroups ((2/3) * (D3.length : ℚ)) 0 (scaffold_separate D3)).map
          Prod.snd).flatten :=
  (claimC3_amended D3 (2/3)).1

/-! ### Claim C6 -/

/-- Clamped values never exceed the truncation bound. -/
theorem clampTrunc_le_ten (q : ℚ) : clampTrunc q ≤ 10 := by
  unfold clampTrunc
  split_ifs <;> linarith

/-- Clamped values never fall below the negated truncation bound. -/
theorem neg_ten_le_clampTrunc (q : ℚ) : -10 ≤ clampTrunc q := by
  unfold clampTrunc
  split_ifs <;> linarith

/-- A fold of `max` stays below a bound dominating the seed and all
elements. -/
theorem foldl_max_le (c : ℚ) (t : List ℚ) :
    ∀ acc : ℚ, acc ≤ c → (∀ x ∈ t, x ≤ c) → t.foldl max acc ≤ c := by
  induction t with
  | nil => intro acc hacc _; exact hacc
  | cons a rest ih =>
    intro acc hacc h
    exact ih (max acc a) (max_le hacc (h a (List.mem_cons_self a rest)))
      (fun x hx => h x (List.mem_cons_of_mem a hx))

/-- A fold of `min` stays above a bound below the seed and all
elements. -/
theorem le_foldl_min (c : ℚ) (t : List ℚ) :
    ∀ acc : ℚ, c ≤ acc → (∀ x ∈ t, c ≤ x) → c ≤ t.foldl min acc := by
  induction t with
  | nil => intro acc hacc _; exact hacc
  | cons a rest ih =>
    intro acc hacc h
    exact ih (min acc a) (le_min hacc (h a (List.mem_cons_self a rest)))
      (fun x hx => h x (List.mem_cons_of_mem a hx))

/-- The maximum of a clamped column is at most 10. -/
theorem pyMax_clamped_le (l : List ℚ) : pyMax (l.map clampTrunc) ≤ 10 := by
  cases l with
  | nil => norm_num [pyMax]
  | cons a t =>
    simp only [List.map_cons, pyMax]
    refine foldl_max_le 10 (t.map clampTrunc) (clampTrunc a) (clampTrunc_le_ten a) ?_
    intro x hx
    obtain ⟨q, hq, rfl⟩ := List.mem_map.1 hx
    exact clampTrunc_le_ten q

/-- The minimum of a clamped column is at least -10. -/
theorem neg_ten_le_pyMin_clamped (l : List ℚ) : -10 ≤ pyMin (l.map clampTrunc) := by
  cases l with
  | nil => norm_num [pyMin]
  | cons a t =>
    simp only [List.map_cons, pyMin]
    refine le_foldl_min (-10) (t.map clampTrunc) (clampTrunc a) (neg_ten_le_clampTrunc a) ?_
    intro x hx
    obtain ⟨q, hq, rfl⟩ := List.mem_map.1 hx
    exact neg_ten_le_clampTrunc q

/-- The result of one `normalize` application, as a total function. -/
theorem normalizeOpRun_eq (col : List ℚ) (std : ℚ) :
    normalizeOpRun col std
      = (if 10 < pyMax col ∨ pyMin col < -10 then normalizedClamped col std else col) := by
  unfold normalizeOpRun normalizeOp
  by_cases h : 10 < pyMax col ∨ pyMin col < -10
  · rw [if_pos h, if_pos h]
    rw [normalizedClamped,
      if_neg (not_or.2 ⟨not_lt.2 (pyMax_clamped_le _), not_lt.2 (neg_ten_le_pyMin_clamped _)⟩)]
  · rw [if_neg h, if_neg h]

/-- The final range check after clamping never fires: `normalizeOp`
always succeeds. -/
theorem normalizeOp_ok (col : List ℚ) (std : ℚ) :
    normalizeOp col std = Except.ok (normalizeOpRun col std) := by
  rw [normalizeOpRun_eq]
  unfold normalizeOp
  by_cases h : 10 < pyMax col ∨ pyMin col < -10
  · rw [if_pos h, if_pos h]
    rw [normalizedClamped,
      if_neg (not_or.2 ⟨not_lt.2 (pyMax_clamped_le _), not_lt.2 (neg_ten_le_pyMin_clamped _)⟩)]
  · rw [if_neg h, if_neg h]

/-- A single `normalize` op on one column always yields its
`normalizeOpRun` result. -/
theorem applyOps_normalize (stdFn : List ℚ → ℚ) (col : List ℚ) :
    applyOps ["normalize"] stdFn col = Except.ok (normalizeOpRun col (stdFn col)) := by
  unfold applyOps
  rw [if_pos rfl, normalizeOp_ok]
  rfl

/-- `mapExcept` of a function that always succeeds. -/
theorem mapExcept_ok_of {α β : Type} (f : α → Except PyErr β) (g : α → β) (l : List α)
    (h : ∀ x ∈ l, f x = Except.ok (g x)) : mapExcept f l = Except.ok (l.map g) := by
  induction l with
  | nil => rfl
  | cons a rest ih =>
    unfold mapExcept
    rw [h a (List.mem_cons_self a rest), ih (fun x hx => h x (List.mem_cons_of_mem a hx))]
    rfl

/-- A list of nonnegative rationals summing to zero is all zero. -/
theorem list_sum_zero_of_nonneg (l : List ℚ) (hnn : ∀ x ∈ l, 0 ≤ x) (hs : l.sum = 0) :
    ∀ x ∈ l, x = 0 := by
  induction l with
  | nil => intro x hx; cases hx
  | cons a rest ih =>
    have ha : 0 ≤ a := hnn a (List.mem_cons_self a rest)
    have hrest : ∀ x ∈ rest, 0 ≤ x := fun x hx => hnn x (List.mem_cons_of_mem a hx)
    have hsum : 0 ≤ rest.sum := List.sum_nonneg hrest
    rw [List.sum_cons] at hs
    have ha0 : a = 0 := by linarith
    have hr0 : rest.sum = 0 := by linarith
    intro x hx
    rcases List.mem_cons.1 hx with rfl | hx2
    · exact ha0
    · exact ih hrest hr0 x hx2

/-- A column of variance zero is constant at its mean. -/
theorem eq_mean_of_var_zero (col : List ℚ) (hne : col ≠ []) (hv : pyVar col = 0) :
    ∀ x ∈ col, x = pyMean col := by
  have hlen : ((col.length : ℕ) : ℚ) ≠ 0 := by
    rw [Nat.cast_ne_zero]
    intro h
    exact hne (List.length_eq_zero.1 h)
  have hsum : (col.map (fun x => (x - pyMean col) ^ 2)).sum = 0 := by
    unfold pyVar at hv
    rcases div_eq_zero_iff.1 hv with h | h
    · exact h
    · exact absurd h hlen
  intro x hx
  have hz : (x - pyMean col) ^ 2 = 0 := by
    refine list_sum_zero_of_nonneg _ ?_ hsum _ ?_
    · intro y hy
      obtain ⟨q, hq, rfl⟩ := List.mem_map.1 hy
      positivity
    · exact List.mem_map_of_mem _ hx
  have := pow_eq_zero_iff (n := 2) (by norm_num) |>.1 hz
  linarith [sub_eq_zero.1 this]

/-- On a zero-variance column the `normalize` op leaves an in-range
column unchanged and centres an out-of-range column to all zeros
(`np.std = 0` skips the scaling, and clamping fixes 0). -/
theorem normalizeRun_var_zero (col : List ℚ) (std : ℚ) (hne : col ≠ [])
    (hstd : std * std = pyVar col) (hv : pyVar col = 0) :
    normalizeOpRun col std
      = (if 10 < pyMax col ∨ pyMin col < -10 then col.map (fun _ => (0 : ℚ)) else col) := by
  have hstd0 : std = 0 := by
    rw [hv] at hstd
    exact mul_self_eq_zero.1 hstd
  rw [normalizeOpRun_eq]
  by_cases h : 10 < pyMax col ∨ pyMin col < -10
  · rw [if_pos h, if_pos h]
    unfold normalizedClamped centeredScaled
    rw [if_pos hstd0, List.map_map]
    refine List.map_congr_left ?_
    intro a ha
    have hma := eq_mean_of_var_zero col hne hv a ha
    simp only [Function.comp_apply, hma, sub_self]
    norm_num [clampTrunc]
  · rw [if_neg h, if_neg h]

/-- Claim C6, counterexample.  The matrix with the single constant
feature column `[20, 20, 20]` has `np.std = 0` (second conjunct shows 0
is the exact standard deviation of the column); the claim says the
output column should be the input clamped to `[-10, 10]`, i.e.
`[10, 10, 10]`, but `transform_inputs` centres the column by its mean
before the (skipped) scaling, producing `[0, 0, 0]`. -/
theorem claimC6_counterexample :
    transform_inputs [[(20 : ℚ), 20, 20]] ["normalize"] (fun _ => 0) = Except.ok [[0, 0, 0]]
    ∧ (0 : ℚ) * 0 = pyVar [(20 : ℚ), 20, 20]
    ∧ [(20 : ℚ), 20, 20].map clampTrunc = [10, 10, 10]
    ∧ ([[(0 : ℚ), 0, 0]] : List (List ℚ)) ≠ [[10, 10, 10]] := by
  refine ⟨?_, ?_, ?_, ?_⟩
  · norm_num [transform_inputs, mapExcept, applyOps, normalizeOp, normalizedClamped,
      centeredScaled, pyMax, pyMin, pyMean, clampTrunc]
  · norm_num [pyVar, pyMean]
  · norm_num [clampTrunc]
  · norm_num

/-- Claim C6 (amended): transforming a matrix (list of feature columns)
with the single op `normalize` always succeeds, producing
`normalizeOpRun` per column, and every nonempty column whose standard
deviation is 0 (equivalently, whose variance is 0) comes out unchanged
when it already lies within `[-10, 10]` and otherwise comes out as the
all-zeros column (centred by its mean, scaling skipped, clamping a
no-op) — not as the clamped input the claim expected. -/
theorem claimC6_amended (X : List (List ℚ)) (stdFn : List ℚ → ℚ)
    (hstd : ∀ col ∈ X, 0 ≤ stdFn col ∧ stdFn col * stdFn col = pyVar col) :
    transform_inputs X ["normalize"] stdFn
      = Except.ok (X.map (fun col => normalizeOpRun col (stdFn col)))
    ∧ ∀ col ∈ X, col ≠ [] → pyVar col = 0 →
        normalizeOpRun col (stdFn col)
          = (if 10 < pyMax col ∨ pyMin col < -10 then col.map (fun _ => (0 : ℚ)) else col) := by
  constructor
  · exact mapExcept_ok_of _ _ X (fun col _ => applyOps_normalize stdFn col)
  · intro col hc hne hv
    exact normalizeRun_var_zero col (stdFn col) hne (hstd col hc).2 hv

/-- Claim C6, witness: the amended theorem applied to the single-column
matrix `[[20, 20, 20]]` with the exact standard deviation 0. -/
theorem claimC6_witness :
    transform_inputs [[(20 : ℚ), 20, 20]] ["normalize"] (fun _ => 0)
      = Except.ok ([[(20 : ℚ), 20, 20]].map (fun col => normalizeOpRun col ((fun _ => (0 : ℚ)) col))) :=
  (claimC6_amended [[(20 : ℚ), 20, 20]] (fun _ => 0) (by
    intro col hc
    refine ⟨le_refl 0, ?_⟩
    have : col = [(20 : ℚ), 20, 20] := by
      rcases List.mem_cons.1 hc with h | h
      · exact h
      · cases h
    rw [this]
    norm_num [pyVar, pyMean])).1

end DeepChem
